import Mathlib

/-!
Verification of the gs-rs Graph SLAM back-end: a shallow embedding of the
Position2D factor handler (`src/optimizer/linear_system/pos2d_handler.rs`)
and of the variable store (`src/factor_graph/variable/mod.rs`), together
with proofs relating them to the specification's error model
(error `e = (R2(-phi_m) * (p_v - p_m), wrap(phi_v - phi_m))`, scatter
`H[r,r] += J^T * Omega * J`, `b[r] += J^T * Omega * e`).

Modelling conventions: `f64` is modelled as `ℝ`; the mutable `DMatrix` /
`DVector` aggregates `H` and `b` are modelled as total functions
`ℕ → ℕ → ℝ` and `ℕ → ℝ` with functional update on the endpoint's index
range; `Rc<RefCell<...>>` cells hold plain values, with mutation modelled
by returning the new value; a Rust panic (out-of-bounds slice index) is
modelled as `Option.none`.
-/

open Real

noncomputable section

/-- Half-open index range `start..stop`, as Rust's `Range<usize>`
(`stop` renders Rust's field `end`, a Lean keyword). -/
structure RRange where
  start : ℕ
  stop : ℕ
deriving DecidableEq

/-- `FixedType` from `factor_graph/variable/mod.rs`: a fixed variable, or a
free variable together with its index range in the global state vector. -/
inductive FixedType where
  | Fixed : FixedType
  | NonFixed : RRange → FixedType
deriving DecidableEq

/-- `VehicleVariable2D` from `factor_graph/variable/mod.rs`: id, pose
`[x, y, phi]` (the content of the `Rc<RefCell<[f64; 3]>>`), fixed type. -/
structure VehicleVariable2D where
  id : ℕ
  pose : Fin 3 → ℝ
  fixed_type : FixedType

/-- `LandmarkVariable2D` from `factor_graph/variable/mod.rs`. -/
structure LandmarkVariable2D where
  id : ℕ
  position : Fin 2 → ℝ
  fixed_type : FixedType

/-- `VehicleVariable3D` from `factor_graph/variable/mod.rs`: pose is
`[x, y, z, qx, qy, qz, qw]`. -/
structure VehicleVariable3D where
  id : ℕ
  pose : Fin 7 → ℝ
  fixed_type : FixedType

/-- `LandmarkVariable3D` from `factor_graph/variable/mod.rs`. -/
structure LandmarkVariable3D where
  id : ℕ
  position : Fin 3 → ℝ
  fixed_type : FixedType

/-- The `Variable` enum from `factor_graph/variable/mod.rs`. -/
inductive Variable where
  | Vehicle2D : VehicleVariable2D → Variable
  | Landmark2D : LandmarkVariable2D → Variable
  | Vehicle3D : VehicleVariable3D → Variable
  | Landmark3D : LandmarkVariable3D → Variable

/-- `Variable::get_fixed_type`. -/
def Variable.get_fixed_type : Variable → FixedType
  | Variable.Vehicle2D v => v.fixed_type
  | Variable.Landmark2D v => v.fixed_type
  | Variable.Vehicle3D v => v.fixed_type
  | Variable.Landmark3D v => v.fixed_type

/-- `Variable::get_content`: the stored array as a vector (`to_vec`). -/
def Variable.get_content : Variable → List ℝ
  | Variable.Vehicle2D v => [v.pose 0, v.pose 1, v.pose 2]
  | Variable.Landmark2D v => [v.position 0, v.position 1]
  | Variable.Vehicle3D v => [v.pose 0, v.pose 1, v.pose 2, v.pose 3, v.pose 4, v.pose 5, v.pose 6]
  | Variable.Landmark3D v => [v.position 0, v.position 1, v.position 2]

/-- `Variable::get_id`. -/
def Variable.get_id : Variable → ℕ
  | Variable.Vehicle2D v => v.id
  | Variable.Landmark2D v => v.id
  | Variable.Vehicle3D v => v.id
  | Variable.Landmark3D v => v.id

/-- `Variable::set_content`: stores `[u[0], .., u[w-1]]` into the cell.
The Rust source performs no length check: reading `u[i]` for
`i ≥ u.len()` panics, which is modelled by the `none` branch; extra
elements of a longer vector are silently ignored. -/
def Variable.set_content : Variable → List ℝ → Option Variable
  | Variable.Vehicle2D v, u =>
    if 3 ≤ u.length then
      some (Variable.Vehicle2D { v with pose := (![u.getD 0 0, u.getD 1 0, u.getD 2 0]) })
    else none
  | Variable.Landmark2D v, u =>
    if 2 ≤ u.length then
      some (Variable.Landmark2D { v with position := (![u.getD 0 0, u.getD 1 0]) })
    else none
  | Variable.Vehicle3D v, u =>
    if 7 ≤ u.length then
      some (Variable.Vehicle3D { v with pose :=
        (![u.getD 0 0, u.getD 1 0, u.getD 2 0, u.getD 3 0, u.getD 4 0, u.getD 5 0, u.getD 6 0]) })
    else none
  | Variable.Landmark3D v, u =>
    if 3 ≤ u.length then
      some (Variable.Landmark3D { v with position := (![u.getD 0 0, u.getD 1 0, u.getD 2 0]) })
    else none

/-- Modelled from the spec: the storage width of each variable kind
(3 for Vehicle2D, 2 for Landmark2D, 7 for Vehicle3D, 3 for Landmark3D);
in the source this is the length of the stored array. -/
def Variable.width : Variable → ℕ
  | Variable.Vehicle2D _ => 3
  | Variable.Landmark2D _ => 2
  | Variable.Vehicle3D _ => 7
  | Variable.Landmark3D _ => 3

/-- Modelled from the spec: a `Position2D` factor as seen by the handler —
a constraint vector `(x_m, y_m, phi_m)` and a 3×3 information matrix
(the factor store itself is outside the embedded sources; the handler
reads exactly these two fields). -/
structure Factor where
  constraint : Fin 3 → ℝ
  information_matrix : Matrix (Fin 3) (Fin 3) ℝ

/-- `get_pos_and_rot` from `pos2d_handler.rs`: split a 3-slice into the
position `(pose[0], pose[1])` and the rotation `pose[2]`. -/
def get_pos_and_rot (pose : Fin 3 → ℝ) : (Fin 2 → ℝ) × ℝ :=
  (![pose 0, pose 1], pose 2)

/-- `nalgebra::Rotation2::new θ`: the 2×2 counter-clockwise rotation. -/
def R2 (θ : ℝ) : Matrix (Fin 2) (Fin 2) ℝ :=
  !![Real.cos θ, -Real.sin θ; Real.sin θ, Real.cos θ]

/-- `nalgebra::Rotation3::from_axis_angle(z_axis, a)` as a 3×3 matrix. -/
def rotZ (a : ℝ) : Matrix (Fin 3) (Fin 3) ℝ :=
  !![Real.cos a, -Real.sin a, 0; Real.sin a, Real.cos a, 0; 0, 0, 1]

/-- `calc_jacobians` from `pos2d_handler.rs`: the rotation about the
z-axis by `-rot_m`, and its transpose. -/
def calc_jacobians (rot_m : ℝ) : Matrix (Fin 3) (Fin 3) ℝ × Matrix (Fin 3) (Fin 3) ℝ :=
  (rotZ (-rot_m), (rotZ (-rot_m)).transpose)

/-- The angular-residual computation inlined in `update_H_b`
(`pos2d_handler.rs` lines 41–46): a single conditional correction of
`rot_v - rot_m` by `±2π`. -/
def pos2d_err_rot (rot_v rot_m : ℝ) : ℝ :=
  let err_rot := rot_v - rot_m
  if err_rot > Real.pi then err_rot - 2 * Real.pi
  else if err_rot < -Real.pi then err_rot + 2 * Real.pi
  else err_rot

/-- The error vector `err_vec` formed in `update_H_b`
(`pos2d_handler.rs` lines 40–48): rotated position difference followed by
the angular residual. -/
def pos2d_err_vec (factor : Factor) (pose : Fin 3 → ℝ) : Fin 3 → ℝ :=
  let pos_v := (get_pos_and_rot pose).1
  let rot_v := (get_pos_and_rot pose).2
  let pos_m := (get_pos_and_rot factor.constraint).1
  let rot_m := (get_pos_and_rot factor.constraint).2
  let err_pos := (R2 (-rot_m)).mulVec (pos_v - pos_m)
  ![err_pos 0, err_pos 1, pos2d_err_rot rot_v rot_m]

/-- `update_H_submatrix` from `pos2d_handler.rs`: add the 3×3 block
`added_matrix` into `H[range, range]` (functional update of the mutable
matrix). -/
def update_H_submatrix (H : ℕ → ℕ → ℝ) (added_matrix : Matrix (Fin 3) (Fin 3) ℝ)
    (range : RRange) : ℕ → ℕ → ℝ :=
  fun i j =>
    if h : range.start ≤ i ∧ i < range.stop ∧ i - range.start < 3 ∧
           range.start ≤ j ∧ j < range.stop ∧ j - range.start < 3 then
      H i j + added_matrix ⟨i - range.start, h.2.2.1⟩ ⟨j - range.start, h.2.2.2.2.2⟩
    else H i j

/-- `update_b_subvector` from `pos2d_handler.rs`: add the 3-vector
`added_vector` into `b[range]`. -/
def update_b_subvector (b : ℕ → ℝ) (added_vector : Fin 3 → ℝ)
    (range : RRange) : ℕ → ℝ :=
  fun i =>
    if h : range.start ≤ i ∧ i < range.stop ∧ i - range.start < 3 then
      b i + added_vector ⟨i - range.start, h.2.2⟩
    else b i

/-- `update_H_b` from `pos2d_handler.rs`: for a fixed variable return
early; otherwise scatter `jacobi_T * (Ω * jacobi)` into `H[range, range]`
and `(err_vec^T * (Ω * jacobi))^T` into `b[range]`. -/
def update_H_b (H : ℕ → ℕ → ℝ) (b : ℕ → ℝ) (factor : Factor)
    (var : VehicleVariable2D) : (ℕ → ℕ → ℝ) × (ℕ → ℝ) :=
  match var.fixed_type with
  | FixedType.Fixed => (H, b)
  | FixedType.NonFixed range =>
    let rot_m := (get_pos_and_rot factor.constraint).2
    let jacobi := (calc_jacobians rot_m).1
    let jacobi_T := (calc_jacobians rot_m).2
    let right_mult := factor.information_matrix * jacobi
    let H_update := jacobi_T * right_mult
    let H2 := update_H_submatrix H H_update range
    let err_vec := pos2d_err_vec factor var.pose
    let b_update := Matrix.vecMul err_vec right_mult
    let b2 := update_b_subvector b b_update range
    (H2, b2)

/-- Modelled from the spec: `wrap(a) = a - 2π·round(a/2π)` normalizing into
`(-π, π]`; landing in the half-open interval `(-π, π]` forces the tie of
`round` at half-integers to go downward, so `round x = ⌈x - 1/2⌉`. -/
def wrap (a : ℝ) : ℝ :=
  a - 2 * Real.pi * ⌈a / (2 * Real.pi) - 1 / 2⌉

/-- Modelled from the spec: the Position2D error vector
`(R2(-phi_m)·(p_v - p_m), wrap(phi_v - phi_m))`. -/
def spec_err_vec (factor : Factor) (pose : Fin 3 → ℝ) : Fin 3 → ℝ :=
  let pos_v := (get_pos_and_rot pose).1
  let pos_m := (get_pos_and_rot factor.constraint).1
  let rot_m := (get_pos_and_rot factor.constraint).2
  let err_pos := (R2 (-rot_m)).mulVec (pos_v - pos_m)
  ![err_pos 0, err_pos 1, wrap ((get_pos_and_rot pose).2 - rot_m)]

/-- Modelled from the spec: the Position2D Jacobian as the 3×3 block
matrix `[[R2(-phi_m), 0], [0, 1]]`. -/
def spec_jacobian (phi_m : ℝ) : Matrix (Fin 3) (Fin 3) ℝ :=
  Matrix.of fun i j =>
    if hi : (i : ℕ) < 2 then
      if hj : (j : ℕ) < 2 then R2 (-phi_m) ⟨i, hi⟩ ⟨j, hj⟩ else 0
    else if (j : ℕ) < 2 then 0 else 1

/-- Concrete zero matrix used in witnesses. -/
def Hzero : ℕ → ℕ → ℝ := fun _ _ => 0

/-- Concrete zero vector used in witnesses. -/
def bzero : ℕ → ℝ := fun _ => 0

/-- Concrete factor used in witnesses: zero constraint, identity Ω. -/
def factorEx : Factor :=
  { constraint := (![0, 0, 0]), information_matrix := 1 }

/-- Concrete non-fixed 2D vehicle variable used in witnesses. -/
def varEx : VehicleVariable2D :=
  { id := 0, pose := (![1, 2, 3]), fixed_type := FixedType.NonFixed ⟨0, 3⟩ }

/-- Concrete fixed 2D vehicle variable used in witnesses. -/
def varFixedEx : VehicleVariable2D :=
  { id := 1, pose := (![4, 5, 6]), fixed_type := FixedType.Fixed }

/-- Concrete factor used in the C1 counterexample: constraint angle π. -/
def factorCex : Factor :=
  { constraint := (![0, 0, Real.pi]), information_matrix := 1 }

/-- Concrete 2D vehicle `Variable` used for the store claims. -/
def varV2Ex : Variable :=
  Variable.Vehicle2D { id := 7, pose := (![0, 0, 0]), fixed_type := FixedType.Fixed }

/-- Concrete 3D vehicle variable used for the store claims. -/
def varV3Ex : VehicleVariable3D :=
  { id := 9, pose := (![0, 0, 0, 0, 0, 0, 1]), fixed_type := FixedType.Fixed }

end

noncomputable section

/-- On `(-π, π]` the spec's wrap is the identity. -/
theorem wrap_eq_self {d : ℝ} (h1 : -Real.pi < d) (h2 : d ≤ Real.pi) : wrap d = d := by
  have hc : ⌈d / (2 * Real.pi) - 1 / 2⌉ = 0 := by
    rw [Int.ceil_eq_zero_iff, Set.mem_Ioc]
    constructor
    · rw [lt_sub_iff_add_lt, lt_div_iff₀ Real.two_pi_pos]
      nlinarith [Real.pi_pos]
    · rw [sub_nonpos, div_le_iff₀ Real.two_pi_pos]
      nlinarith [Real.pi_pos]
  rw [wrap, hc]
  push_cast
  ring

/-- On `(π, 3π]` the spec's wrap subtracts one turn. -/
theorem wrap_eq_sub {d : ℝ} (h1 : Real.pi < d) (h2 : d ≤ 3 * Real.pi) :
    wrap d = d - 2 * Real.pi := by
  have hc : ⌈d / (2 * Real.pi) - 1 / 2⌉ = 1 := by
    rw [Int.ceil_eq_iff]
    constructor
    · push_cast
      rw [show (1 : ℝ) - 1 = 0 by ring, lt_sub_iff_add_lt, zero_add, lt_div_iff₀ Real.two_pi_pos]
      nlinarith [Real.pi_pos]
    · push_cast
      rw [sub_le_iff_le_add, div_le_iff₀ Real.two_pi_pos]
      nlinarith [Real.pi_pos]
  rw [wrap, hc]
  push_cast
  ring

/-- On `(-3π, -π)` the spec's wrap adds one turn. -/
theorem wrap_eq_add {d : ℝ} (h1 : -(3 * Real.pi) < d) (h2 : d < -Real.pi) :
    wrap d = d + 2 * Real.pi := by
  have hc : ⌈d / (2 * Real.pi) - 1 / 2⌉ = -1 := by
    rw [Int.ceil_eq_iff]
    constructor
    · push_cast
      rw [show (-1 : ℝ) - 1 = -2 by ring, lt_sub_iff_add_lt, lt_div_iff₀ Real.two_pi_pos]
      nlinarith [Real.pi_pos]
    · push_cast
      rw [sub_le_iff_le_add, div_le_iff₀ Real.two_pi_pos]
      nlinarith [Real.pi_pos]
  rw [wrap, hc]
  push_cast
  ring

/-- The spec's wrap always lands in `(-π, π]`. -/
theorem wrap_mem_Ioc (a : ℝ) : -Real.pi < wrap a ∧ wrap a ≤ Real.pi := by
  set x : ℝ := a / (2 * Real.pi) - 1 / 2 with hx
  have hxval : 2 * Real.pi * x = a - Real.pi := by
    rw [hx]
    field_simp
    ring
  have h1 : (x : ℝ) ≤ ⌈x⌉ := Int.le_ceil x
  have h2 : ((⌈x⌉ : ℤ) : ℝ) < x + 1 := Int.ceil_lt_add_one x
  have p1 : 2 * Real.pi * x ≤ 2 * Real.pi * (⌈x⌉ : ℝ) :=
    mul_le_mul_of_nonneg_left h1 (le_of_lt Real.two_pi_pos)
  have p2 : 2 * Real.pi * ((⌈x⌉ : ℤ) : ℝ) < 2 * Real.pi * (x + 1) :=
    mul_lt_mul_of_pos_left h2 Real.two_pi_pos
  rw [wrap]
  constructor
  · nlinarith [Real.pi_pos]
  · nlinarith [Real.pi_pos]

/-- The single-correction angular residual of the handler agrees with the
spec's wrap on differences in `(-3π, 3π]` other than `-π`. -/
theorem pos2d_err_rot_eq_wrap (rot_v rot_m : ℝ)
    (h1 : -(3 * Real.pi) < rot_v - rot_m) (h2 : rot_v - rot_m ≤ 3 * Real.pi)
    (h3 : rot_v - rot_m ≠ -Real.pi) :
    pos2d_err_rot rot_v rot_m = wrap (rot_v - rot_m) := by
  simp only [pos2d_err_rot]
  by_cases hgt : rot_v - rot_m > Real.pi
  · rw [if_pos hgt, wrap_eq_sub hgt h2]
  · rw [if_neg hgt]
    by_cases hlt : rot_v - rot_m < -Real.pi
    · rw [if_pos hlt, wrap_eq_add h1 hlt]
    · rw [if_neg hlt]
      have hge : -Real.pi < rot_v - rot_m :=
        lt_of_le_of_ne (le_of_not_lt hlt) (Ne.symm h3)
      exact (wrap_eq_self hge (le_of_not_lt hgt)).symm

end

noncomputable section

/-- C1 counterexample: at pose `(0,0,0)` and constraint `(0,0,π)` the
angle difference is exactly `-π`; the handler's error vector keeps `-π`
while the spec's `wrap` (normalizing into `(-π, π]`) returns `π`, so the
two error vectors differ. -/
theorem c1_counterexample :
    pos2d_err_vec factorCex (![0, 0, 0]) ≠ spec_err_vec factorCex (![0, 0, 0]) := by
  intro h
  have h2 := congrFun h 2
  have hl : pos2d_err_vec factorCex (![0, 0, 0]) 2 = -Real.pi := by
    have hrr : pos2d_err_rot 0 Real.pi = -Real.pi := by
      have c1 : ¬ ((0 : ℝ) - Real.pi > Real.pi) := by nlinarith [Real.pi_pos]
      have c2 : ¬ ((0 : ℝ) - Real.pi < -Real.pi) := by nlinarith
      simp only [pos2d_err_rot]
      rw [if_neg c1, if_neg c2]
      ring
    simp [pos2d_err_vec, factorCex, get_pos_and_rot, hrr]
  have hr : spec_err_vec factorCex (![0, 0, 0]) 2 = Real.pi := by
    have hw : wrap (-Real.pi) = Real.pi := by
      have harg : (-Real.pi) / (2 * Real.pi) - 1 / 2 = -1 := by
        field_simp
        ring
      have hceil : ⌈(-Real.pi) / (2 * Real.pi) - 1 / 2⌉ = -1 := by
        rw [harg]
        rw [Int.ceil_eq_iff]
        constructor <;> norm_num
      rw [wrap, hceil]
      push_cast
      ring
    simp [spec_err_vec, factorCex, get_pos_and_rot, hw]
  rw [hl, hr] at h2
  nlinarith [Real.pi_pos]

/-- C1 (amended): the error vector of `update_H_b` equals the spec's
`(R2(-phi_m)·(p_v - p_m), wrap(phi_v - phi_m))` whenever the raw angle
difference lies in `(-3π, 3π]` and is not exactly `-π`; the position
components agree unconditionally. -/
theorem c1_error_vector_amended (factor : Factor) (pose : Fin 3 → ℝ)
    (h1 : -(3 * Real.pi) < pose 2 - factor.constraint 2)
    (h2 : pose 2 - factor.constraint 2 ≤ 3 * Real.pi)
    (h3 : pose 2 - factor.constraint 2 ≠ -Real.pi) :
    pos2d_err_vec factor pose = spec_err_vec factor pose := by
  have ha := pos2d_err_rot_eq_wrap (pose 2) (factor.constraint 2) h1 h2 h3
  funext i
  fin_cases i <;> simp [pos2d_err_vec, spec_err_vec, get_pos_and_rot, ha]

/-- C1 witness: the amended equality instantiated at the zero pose and a
zero-constraint factor. -/
theorem c1_witness :
    pos2d_err_vec factorEx (![0, 0, 0]) = spec_err_vec factorEx (![0, 0, 0]) :=
  c1_error_vector_amended factorEx (![0, 0, 0])
    (by simp [factorEx]; nlinarith [Real.pi_pos])
    (by simp [factorEx]; nlinarith [Real.pi_pos])
    (by intro h; simp [factorEx] at h; nlinarith [Real.pi_pos])

/-- C4 counterexample: at angle difference `5π` (magnitude at least `3π`)
the single correction of the handler returns `3π`, which differs from
`wrap(5π) = π` and lies outside `(-π, π]`. -/
theorem c4_counterexample :
    pos2d_err_rot (5 * Real.pi) 0 ≠ wrap (5 * Real.pi - 0) ∧
    Real.pi < pos2d_err_rot (5 * Real.pi) 0 := by
  have hval : pos2d_err_rot (5 * Real.pi) 0 = 3 * Real.pi := by
    have c1 : (5 * Real.pi - 0 : ℝ) > Real.pi := by nlinarith [Real.pi_pos]
    simp only [pos2d_err_rot]
    rw [if_pos c1]
    ring
  have hw : wrap (5 * Real.pi - 0) = Real.pi := by
    have harg : (5 * Real.pi - 0) / (2 * Real.pi) - 1 / 2 = 2 := by
      field_simp
      ring
    have hceil : ⌈(5 * Real.pi - 0) / (2 * Real.pi) - 1 / 2⌉ = 2 := by
      rw [harg]
      rw [Int.ceil_eq_iff]
      constructor <;> norm_num
    rw [wrap, hceil]
    push_cast
    ring
  constructor
  · rw [hval, hw]
    intro h
    nlinarith [Real.pi_pos]
  · rw [hval]
    nlinarith [Real.pi_pos]

/-- C4 (amended): the handler's angular residual equals `wrap` of the raw
difference — and hence lands in `(-π, π]` — exactly on differences in
`(-3π, 3π]` other than `-π`; outside that set the single `±2π` correction
is not the spec's wrap (see the counterexample). -/
theorem c4_angular_residual_amended (rot_v rot_m : ℝ)
    (h1 : -(3 * Real.pi) < rot_v - rot_m) (h2 : rot_v - rot_m ≤ 3 * Real.pi)
    (h3 : rot_v - rot_m ≠ -Real.pi) :
    pos2d_err_rot rot_v rot_m = wrap (rot_v - rot_m) ∧
    -Real.pi < pos2d_err_rot rot_v rot_m ∧ pos2d_err_rot rot_v rot_m ≤ Real.pi := by
  have h := pos2d_err_rot_eq_wrap rot_v rot_m h1 h2 h3
  refine ⟨h, ?_, ?_⟩
  · rw [h]
    exact (wrap_mem_Ioc _).1
  · rw [h]
    exact (wrap_mem_Ioc _).2

/-- C4 witness: the amended statement instantiated at difference `π`. -/
theorem c4_witness :
    pos2d_err_rot Real.pi 0 = wrap (Real.pi - 0) ∧
    -Real.pi < pos2d_err_rot Real.pi 0 ∧ pos2d_err_rot Real.pi 0 ≤ Real.pi :=
  c4_angular_residual_amended Real.pi 0
    (by nlinarith [Real.pi_pos])
    (by nlinarith [Real.pi_pos])
    (by intro h; nlinarith [Real.pi_pos])

end

noncomputable section

/-- C3: when the Position2D factor's Vehicle2D endpoint is fixed,
`update_H_b` returns early and both `H` and `b` are entirely unchanged
(the handler takes the variable by shared reference and returns only the
new `(H, b)`, so the estimate cannot change). -/
theorem c3_fixed_endpoint_no_update (H : ℕ → ℕ → ℝ) (b : ℕ → ℝ)
    (factor : Factor) (var : VehicleVariable2D)
    (hfix : var.fixed_type = FixedType.Fixed) :
    update_H_b H b factor var = (H, b) := by
  simp only [update_H_b, hfix]

/-- C3 witness: a concrete fixed variable leaves the concrete `(H, b)`
untouched. -/
theorem c3_witness : update_H_b Hzero bzero factorEx varFixedEx = (Hzero, bzero) :=
  c3_fixed_endpoint_no_update Hzero bzero factorEx varFixedEx rfl

/-- C5: `calc_jacobians` returns exactly the 3×3 block matrix
`[[R2(-phi_m), 0], [0, 1]]` together with its transpose; its only input is
the constraint angle, so it cannot depend on the variable's estimate. -/
theorem c5_jacobian_block_form (rot_m : ℝ) :
    (calc_jacobians rot_m).1 = spec_jacobian rot_m ∧
    (calc_jacobians rot_m).2 = (spec_jacobian rot_m).transpose := by
  have h : rotZ (-rot_m) = spec_jacobian rot_m := by
    ext i j
    fin_cases i <;> fin_cases j <;>
      norm_num [rotZ, spec_jacobian, R2]
  exact ⟨h, by simp only [calc_jacobians, h]⟩

end

noncomputable section

/-- C2: for a non-fixed endpoint with a width-3 free range and a symmetric
information matrix, `update_H_b` adds exactly `J^T·Ω·J` to `H[r, r]` and
exactly `J^T·Ω·e` to `b[r]`, accumulating onto the previous entries. -/
theorem c2_scatter_accumulates (H : ℕ → ℕ → ℝ) (b : ℕ → ℝ) (factor : Factor)
    (var : VehicleVariable2D) (r : RRange) (i j : Fin 3)
    (hfix : var.fixed_type = FixedType.NonFixed r)
    (hw : r.stop = r.start + 3)
    (hsym : factor.information_matrix.transpose = factor.information_matrix) :
    (update_H_b H b factor var).1 (r.start + i) (r.start + j)
      = H (r.start + i) (r.start + j)
        + ((calc_jacobians ((get_pos_and_rot factor.constraint).2)).1.transpose
            * factor.information_matrix
            * (calc_jacobians ((get_pos_and_rot factor.constraint).2)).1) i j
    ∧ (update_H_b H b factor var).2 (r.start + i)
      = b (r.start + i)
        + ((calc_jacobians ((get_pos_and_rot factor.constraint).2)).1.transpose).mulVec
            (factor.information_matrix.mulVec (pos2d_err_vec factor var.pose)) i := by
  have hi3 : (i : ℕ) < 3 := i.isLt
  have hj3 : (j : ℕ) < 3 := j.isLt
  constructor
  · simp only [update_H_b, hfix, update_H_submatrix]
    have hcond : r.start ≤ r.start + (i : ℕ) ∧ r.start + (i : ℕ) < r.stop ∧
        r.start + (i : ℕ) - r.start < 3 ∧ r.start ≤ r.start + (j : ℕ) ∧
        r.start + (j : ℕ) < r.stop ∧ r.start + (j : ℕ) - r.start < 3 := by
      refine ⟨?_, ?_, ?_, ?_, ?_, ?_⟩ <;> omega
    rw [dif_pos hcond]
    have hfi : (⟨r.start + (i : ℕ) - r.start, hcond.2.2.1⟩ : Fin 3) = i := by
      apply Fin.ext
      simp
    have hfj : (⟨r.start + (j : ℕ) - r.start, hcond.2.2.2.2.2⟩ : Fin 3) = j := by
      apply Fin.ext
      simp
    rw [hfi, hfj]
    congr 1
    have hassoc : (calc_jacobians ((get_pos_and_rot factor.constraint).2)).2 *
        (factor.information_matrix * (calc_jacobians ((get_pos_and_rot factor.constraint).2)).1)
        = (calc_jacobians ((get_pos_and_rot factor.constraint).2)).1.transpose
            * factor.information_matrix
            * (calc_jacobians ((get_pos_and_rot factor.constraint).2)).1 := by
      rw [Matrix.mul_assoc]
      rfl
    rw [hassoc]
  · simp only [update_H_b, hfix, update_b_subvector]
    have hcond : r.start ≤ r.start + (i : ℕ) ∧ r.start + (i : ℕ) < r.stop ∧
        r.start + (i : ℕ) - r.start < 3 := by
      refine ⟨?_, ?_, ?_⟩ <;> omega
    rw [dif_pos hcond]
    have hfi : (⟨r.start + (i : ℕ) - r.start, hcond.2.2⟩ : Fin 3) = i := by
      apply Fin.ext
      simp
    rw [hfi]
    congr 1
    have hvm : Matrix.vecMul (pos2d_err_vec factor var.pose)
        (factor.information_matrix * (calc_jacobians ((get_pos_and_rot factor.constraint).2)).1)
        = ((calc_jacobians ((get_pos_and_rot factor.constraint).2)).1.transpose).mulVec
            (factor.information_matrix.mulVec (pos2d_err_vec factor var.pose)) := by
      rw [← Matrix.mulVec_transpose, Matrix.transpose_mul, hsym, ← Matrix.mulVec_mulVec]
    rw [hvm]

/-- C2 witness: the scatter equalities at a concrete zero system, identity
information matrix and the range `0..3`, evaluated at block entry `(1, 2)`. -/
theorem c2_witness :
    (update_H_b Hzero bzero factorEx varEx).1 1 2
      = Hzero 1 2
        + ((calc_jacobians ((get_pos_and_rot factorEx.constraint).2)).1.transpose
            * factorEx.information_matrix
            * (calc_jacobians ((get_pos_and_rot factorEx.constraint).2)).1) 1 2
    ∧ (update_H_b Hzero bzero factorEx varEx).2 1
      = bzero 1
        + ((calc_jacobians ((get_pos_and_rot factorEx.constraint).2)).1.transpose).mulVec
            (factorEx.information_matrix.mulVec (pos2d_err_vec factorEx varEx.pose)) 1 := by
  have h := c2_scatter_accumulates Hzero bzero factorEx varEx ⟨0, 3⟩ 1 2 rfl rfl
    (by simp [factorEx])
  exact h

end

noncomputable section

/-- C6: with a symmetric information matrix, a call to `update_H_b`
preserves symmetry of `H`: the added block `J^T·Ω·J` is symmetric and is
scattered onto a diagonal block, and a fixed endpoint adds nothing. -/
theorem c6_symmetry_preserved (H : ℕ → ℕ → ℝ) (b : ℕ → ℝ) (factor : Factor)
    (var : VehicleVariable2D) (i j : ℕ)
    (hsym : factor.information_matrix.transpose = factor.information_matrix)
    (hH : ∀ a c : ℕ, H a c = H c a) :
    (update_H_b H b factor var).1 i j = (update_H_b H b factor var).1 j i := by
  have hU : ((calc_jacobians ((get_pos_and_rot factor.constraint).2)).2 *
      (factor.information_matrix *
        (calc_jacobians ((get_pos_and_rot factor.constraint).2)).1)).transpose
      = (calc_jacobians ((get_pos_and_rot factor.constraint).2)).2 *
        (factor.information_matrix *
          (calc_jacobians ((get_pos_and_rot factor.constraint).2)).1) := by
    have h21 : (calc_jacobians ((get_pos_and_rot factor.constraint).2)).2
        = ((calc_jacobians ((get_pos_and_rot factor.constraint).2)).1).transpose := rfl
    rw [h21, Matrix.transpose_mul, Matrix.transpose_mul, Matrix.transpose_transpose, hsym,
      Matrix.mul_assoc]
  cases hv : var.fixed_type with
  | Fixed =>
    simp only [update_H_b, hv]
    exact hH i j
  | NonFixed r =>
    simp only [update_H_b, hv, update_H_submatrix]
    by_cases hc : r.start ≤ i ∧ i < r.stop ∧ i - r.start < 3 ∧
        r.start ≤ j ∧ j < r.stop ∧ j - r.start < 3
    · have hc2 : r.start ≤ j ∧ j < r.stop ∧ j - r.start < 3 ∧
          r.start ≤ i ∧ i < r.stop ∧ i - r.start < 3 :=
        ⟨hc.2.2.2.1, hc.2.2.2.2.1, hc.2.2.2.2.2, hc.1, hc.2.1, hc.2.2.1⟩
      rw [dif_pos hc, dif_pos hc2, hH i j]
      congr 1
      have := congrFun (congrFun hU ⟨j - r.start, hc.2.2.2.2.2⟩) ⟨i - r.start, hc.2.2.1⟩
      simpa [Matrix.transpose_apply] using this
    · have hc2 : ¬ (r.start ≤ j ∧ j < r.stop ∧ j - r.start < 3 ∧
          r.start ≤ i ∧ i < r.stop ∧ i - r.start < 3) := by
        intro h
        exact hc ⟨h.2.2.2.1, h.2.2.2.2.1, h.2.2.2.2.2, h.1, h.2.1, h.2.2.1⟩
      rw [dif_neg hc, dif_neg hc2]
      exact hH i j

/-- C6 witness: symmetry at the concrete zero system with identity Ω,
checked at entry `(0, 2)` against `(2, 0)`. -/
theorem c6_witness :
    (update_H_b Hzero bzero factorEx varEx).1 0 2
      = (update_H_b Hzero bzero factorEx varEx).1 2 0 :=
  c6_symmetry_preserved Hzero bzero factorEx varEx 0 2 (by simp [factorEx])
    (fun _ _ => rfl)

/-- C7: for a non-fixed endpoint with range `r`, `update_H_b` changes no
entry of `H` whose row or column index lies outside `r`, and no entry of
`b` whose index lies outside `r`. -/
theorem c7_frame_effect (H : ℕ → ℕ → ℝ) (b : ℕ → ℝ) (factor : Factor)
    (var : VehicleVariable2D) (r : RRange) (i j k : ℕ)
    (hfix : var.fixed_type = FixedType.NonFixed r)
    (hij : (i < r.start ∨ r.stop ≤ i) ∨ (j < r.start ∨ r.stop ≤ j))
    (hk : k < r.start ∨ r.stop ≤ k) :
    (update_H_b H b factor var).1 i j = H i j ∧
    (update_H_b H b factor var).2 k = b k := by
  constructor
  · simp only [update_H_b, hfix, update_H_submatrix]
    rw [dif_neg]
    intro hcon
    obtain ⟨a1, a2, _, a4, a5, _⟩ := hcon
    rcases hij with (h | h) | (h | h) <;> omega
  · simp only [update_H_b, hfix, update_b_subvector]
    rw [dif_neg]
    intro hcon
    obtain ⟨a1, a2, _⟩ := hcon
    rcases hk with h | h <;> omega

/-- C7 witness: with range `0..3`, the entry `H[5, 0]` and the entry
`b[3]` are unchanged by the concrete scatter. -/
theorem c7_witness :
    (update_H_b Hzero bzero factorEx varEx).1 5 0 = Hzero 5 0 ∧
    (update_H_b Hzero bzero factorEx varEx).2 3 = bzero 3 :=
  c7_frame_effect Hzero bzero factorEx varEx ⟨0, 3⟩ 5 0 3 rfl
    (Or.inl (Or.inr (by norm_num))) (Or.inr (by norm_num))

end

noncomputable section

/-- C8 counterexample: a 4-element vector does not match Vehicle2D's
storage width 3, yet `set_content` succeeds (storing the first three
elements) instead of failing with a `DimensionMismatch` error. -/
theorem c8_counterexample :
    ([(1 : ℝ), 2, 3, 4].length ≠ Variable.width varV2Ex) ∧
    (Variable.set_content varV2Ex [(1 : ℝ), 2, 3, 4]).isSome = true := by
  constructor
  · norm_num [varV2Ex, Variable.width]
  · rfl

/-- C8 (amended): `set_content` performs no length check and reports no
`DimensionMismatch`: it succeeds exactly when the vector is at least as
long as the storage width (extra elements are ignored), and a shorter
vector makes the indexing panic (`none`) rather than return an error. -/
theorem c8_set_content_no_length_check (v : Variable) (u : List ℝ) :
    (Variable.set_content v u).isSome = true ↔ Variable.width v ≤ u.length := by
  cases v <;>
    simp only [Variable.set_content, Variable.width] <;>
    split <;>
    simp_all

/-- C9: a 7-element update to a Vehicle3D variable is stored verbatim —
in particular the quaternion components in slots 3..6 are not
re-normalized — and the id and fixed type are untouched. -/
theorem c9_quaternion_verbatim (v : VehicleVariable3D) (u : List ℝ)
    (hu : u.length = 7) :
    Variable.set_content (Variable.Vehicle3D v) u
      = some (Variable.Vehicle3D ⟨v.id,
          ![u.getD 0 0, u.getD 1 0, u.getD 2 0, u.getD 3 0, u.getD 4 0, u.getD 5 0, u.getD 6 0],
          v.fixed_type⟩) := by
  simp [Variable.set_content, hu]

/-- C9 witness: the non-unit quaternion `(1, 2, 3, 4)` is stored exactly
as passed. -/
theorem c9_witness :
    Variable.set_content (Variable.Vehicle3D varV3Ex) [0, 0, 0, 1, 2, 3, 4]
      = some (Variable.Vehicle3D ⟨varV3Ex.id,
          ![([(0 : ℝ), 0, 0, 1, 2, 3, 4]).getD 0 0,
            ([(0 : ℝ), 0, 0, 1, 2, 3, 4]).getD 1 0,
            ([(0 : ℝ), 0, 0, 1, 2, 3, 4]).getD 2 0,
            ([(0 : ℝ), 0, 0, 1, 2, 3, 4]).getD 3 0,
            ([(0 : ℝ), 0, 0, 1, 2, 3, 4]).getD 4 0,
            ([(0 : ℝ), 0, 0, 1, 2, 3, 4]).getD 5 0,
            ([(0 : ℝ), 0, 0, 1, 2, 3, 4]).getD 6 0],
          varV3Ex.fixed_type⟩) :=
  c9_quaternion_verbatim varV3Ex [0, 0, 0, 1, 2, 3, 4] rfl

/-- C10: setting a variable's content to its own content is the identity;
after setting a width-matching vector, `get_content` returns exactly that
vector; neither operation changes the id or the fixed type. -/
theorem c10_roundtrip (v : Variable) (u : List ℝ)
    (hu : u.length = Variable.width v) :
    Variable.set_content v (Variable.get_content v) = some v ∧
    (Variable.set_content v u).map Variable.get_content = some u ∧
    (Variable.set_content v u).map Variable.get_id = some (Variable.get_id v) ∧
    (Variable.set_content v u).map Variable.get_fixed_type
      = some (Variable.get_fixed_type v) := by
  cases v with
  | Vehicle2D w =>
    have hpose : (![w.pose 0, w.pose 1, w.pose 2]) = w.pose := by
      funext i
      fin_cases i <;> rfl
    refine ⟨by simp [Variable.get_content, Variable.set_content, hpose], ?_, ?_, ?_⟩ <;>
      · simp only [Variable.width] at hu
        rcases u with _ | ⟨x1, _ | ⟨x2, _ | ⟨x3, _ | ⟨x4, t⟩⟩⟩⟩ <;>
          first
            | rfl
            | simp at hu
  | Landmark2D w =>
    have hpos : (![w.position 0, w.position 1]) = w.position := by
      funext i
      fin_cases i <;> rfl
    refine ⟨by simp [Variable.get_content, Variable.set_content, hpos], ?_, ?_, ?_⟩ <;>
      · simp only [Variable.width] at hu
        rcases u with _ | ⟨x1, _ | ⟨x2, _ | ⟨x3, t⟩⟩⟩ <;>
          first
            | rfl
            | simp at hu
  | Vehicle3D w =>
    have hpose : (![w.pose 0, w.pose 1, w.pose 2, w.pose 3, w.pose 4, w.pose 5, w.pose 6])
        = w.pose := by
      funext i
      fin_cases i <;> rfl
    refine ⟨by simp [Variable.get_content, Variable.set_content, hpose], ?_, ?_, ?_⟩ <;>
      · simp only [Variable.width] at hu
        rcases u with
          _ | ⟨x1, _ | ⟨x2, _ | ⟨x3, _ | ⟨x4, _ | ⟨x5, _ | ⟨x6, _ | ⟨x7, _ | ⟨x8, t⟩⟩⟩⟩⟩⟩⟩⟩ <;>
          first
            | rfl
            | simp at hu
  | Landmark3D w =>
    have hpos : (![w.position 0, w.position 1, w.position 2]) = w.position := by
      funext i
      fin_cases i <;> rfl
    refine ⟨by simp [Variable.get_content, Variable.set_content, hpos], ?_, ?_, ?_⟩ <;>
      · simp only [Variable.width] at hu
        rcases u with _ | ⟨x1, _ | ⟨x2, _ | ⟨x3, _ | ⟨x4, t⟩⟩⟩⟩ <;>
          first
            | rfl
            | simp at hu

/-- C10 witness: the round trip at a concrete Vehicle2D variable and the
concrete width-3 vector `[4, 5, 6]`. -/
theorem c10_witness :
    Variable.set_content varV2Ex (Variable.get_content varV2Ex) = some varV2Ex ∧
    (Variable.set_content varV2Ex [4, 5, 6]).map Variable.get_content = some [4, 5, 6] ∧
    (Variable.set_content varV2Ex [4, 5, 6]).map Variable.get_id
      = some (Variable.get_id varV2Ex) ∧
    (Variable.set_content varV2Ex [4, 5, 6]).map Variable.get_fixed_type
      = some (Variable.get_fixed_type varV2Ex) :=
  c10_roundtrip varV2Ex [4, 5, 6] rfl

end
